import Mathlib

/-!
Verification of the Analysis Orchestration Engine of the sally-imperialx
repository: a shallow embedding in Lean 4 of the planner, the multi-source
data aggregator, the technical-indicator library, the provider fallback
pool, the memory helpers and the confidence scorer, together with theorems
settling the specification claims about them.

Modelling conventions:
* JavaScript numbers are modelled as rationals; operations whose JS
  counterpart can yield NaN (division by zero on an empty window, for
  example) are noted at the definition site.  Math.sqrt has no exact
  rational counterpart and is passed in as an abstract function.
* Asynchronous external calls (Bybit market API, fallback providers, the
  live-price APIs, web search, the planning oracle) are modelled as
  environment parameters returning an Except value: a thrown or rejected
  promise is Except.error, a resolved value is Except.ok.
* The aggregator additionally records a trace of the external calls it
  makes, so that claims about which lookups are invoked can be stated.
* String helpers used by the source (toLowerCase, trim, includes,
  startsWith, replace of a leading pattern, toUpperCase, parseInt) are
  implemented over the character list of a Lean String so that concrete
  instances reduce in the kernel; each mirrors the ASCII behaviour of the
  JS method it embeds.
-/

namespace Sally

/-! ## JS string primitives -/

/-- Embeds String.prototype.toLowerCase (ASCII range, the only range the
source feeds it). -/
def jsToLower (s : String) : String := String.mk (s.data.map Char.toLower)

/-- Embeds String.prototype.toUpperCase (ASCII range). -/
def jsToUpper (s : String) : String := String.mk (s.data.map Char.toUpper)

/-- Embeds String.prototype.trim. -/
def jsTrim (s : String) : String :=
  String.mk (((s.data.dropWhile Char.isWhitespace).reverse.dropWhile
      Char.isWhitespace).reverse)

/-- pat matches at the head of l. -/
def subAt : List Char → List Char → Bool
  | [], _ => true
  | _ :: _, [] => false
  | p :: ps, c :: cs => p == c && subAt ps cs

/-- pat occurs somewhere in l. -/
def hasSub (pat : List Char) : List Char → Bool
  | [] => pat.isEmpty
  | c :: cs => subAt pat (c :: cs) || hasSub pat cs

/-- Embeds String.prototype.includes. -/
def strIncludes (s pat : String) : Bool := hasSub pat.data s.data

/-- Embeds String.prototype.startsWith. -/
def jsStartsWith (s pat : String) : Bool := subAt pat.data s.data

/-- Removes the first occurrence of a nonempty pat from l, embedding
String.prototype.replace(pat, empty string).  The source only calls it
with a nonempty pattern. -/
def replFirstAux (pat : List Char) : List Char → List Char
  | [] => []
  | c :: cs => if subAt pat (c :: cs) then cs.drop (pat.length - 1)
               else c :: replFirstAux pat cs

/-- Embeds s.replace(pat, empty string) for a nonempty pat. -/
def jsReplaceFirst (s pat : String) : String :=
  String.mk (replFirstAux pat.data s.data)

/-- Embeds parseInt(s, 10) followed by the JS or-default idiom: both a NaN
parse (no leading digits) and a parsed value of 0 fall back to dflt, since
NaN and 0 are falsy. -/
def jsParseIntDefault (s : String) (dflt : Nat) : Nat :=
  let ds := s.data.takeWhile Char.isDigit
  if ds.isEmpty then dflt
  else
    let n := ds.foldl (fun acc c => 10 * acc + (c.toNat - 48)) 0
    if n = 0 then dflt else n

/-! ## Technical indicator library (src/backend/analysis.js, lines 11-105)

Close-price series are chronologically ordered lists of rationals.  Every
function is total in Lean; the JS functions can only throw outside the
regimes the claims quantify over (for example WMA with period 0 reduces an
empty array without an initial value), and each such spot is noted. -/

namespace TechnicalIndicators

/-- Embeds values.slice(-period).  JS slice(-0) is slice(0), the whole
array, hence the special case for period 0. -/
def sliceLast (l : List ℚ) (period : Nat) : List ℚ :=
  if period = 0 then l else l.drop (l.length - period)

/-- SMA (analysis.js 12-15): mean of the last period values, null when the
series is shorter than period. -/
def SMA (values : List ℚ) (period : Nat) : Option ℚ :=
  if values.length < period then none
  else some (((sliceLast values period).foldl (· + ·) 0) / period)

/-- EMA (analysis.js 17-25): seeds with values[0] and recurs over the whole
series; null when shorter than period.  For an empty series with period 0
the JS code reads values[0] as undefined and propagates NaN; here the seed
defaults to 0 (that regime is outside every claim). -/
def EMA (values : List ℚ) (period : Nat) : Option ℚ :=
  if values.length < period then none
  else
    let k : ℚ := 2 / (period + 1)
    some (values.tail.foldl (fun ema v => v * k + ema * (1 - k))
      (values.headD 0))

/-- RSI (analysis.js 27-40): the loop walks i from closes.length - period
to closes.length - 1 summing positive changes into gains and negated
non-positive changes into losses; here window is the last period + 1
closes and deltas the same period consecutive differences, folded with the
same branch.  For period 0 the JS code divides 0 by 0 giving NaN and
returns NaN; in ℚ the division yields 0 and the 100 branch is taken (that
regime is outside every claim). -/
def RSI (closes : List ℚ) (period : Nat) : Option ℚ :=
  if closes.length < period + 1 then none
  else
    let window := closes.drop (closes.length - (period + 1))
    let deltas := List.zipWith (fun a b => a - b) window.tail window
    let gl := deltas.foldl
      (fun (p : ℚ × ℚ) change =>
        if change > 0 then (p.1 + change, p.2) else (p.1, p.2 - change))
      (0, 0)
    let avgGain := gl.1 / period
    let avgLoss := gl.2 / period
    if avgLoss = 0 then some 100
    else some (100 - 100 / (1 + avgGain / avgLoss))

/-- Result shape of MACD (analysis.js 57-62). -/
structure MACDResult where
  macdLine : ℚ
  signalLine : ℚ
  histogram : ℚ
  crossover : String
deriving DecidableEq, Repr

/-- MACD (analysis.js 42-63).  The signal line is the EMA of the series of
MACD-line values recomputed at every index from slowPeriod - 1 onward.  A
null EMA inside the map coerces to 0 in the JS subtraction, embedded with
getD 0; the guard makes the final signal EMA defined for the default
periods (slow at least 1). -/
def MACD (closes : List ℚ) (fastPeriod slowPeriod signalPeriod : Nat) :
    Option MACDResult :=
  if closes.length < slowPeriod + signalPeriod then none
  else
    match EMA closes fastPeriod, EMA closes slowPeriod with
    | some emaFast, some emaSlow =>
      let macdLine := emaFast - emaSlow
      let macdValues := ((List.range closes.length).map (fun i =>
        if i < slowPeriod - 1 then (0 : ℚ)
        else ((EMA (closes.take (i + 1)) fastPeriod).getD 0)
          - ((EMA (closes.take (i + 1)) slowPeriod).getD 0))).drop
        (slowPeriod - 1)
      let signalLine := (EMA macdValues signalPeriod).getD 0
      some { macdLine := macdLine
             signalLine := signalLine
             histogram := macdLine - signalLine
             crossover := if macdLine > signalLine then "bullish"
                          else "bearish" }
    | _, _ => none

/-- VWAP (analysis.js 65-76) over OHLCV candles (row layout
[start, open, high, low, close, volume], indices 2..5 used).  When the
cumulative volume is 0 the JS division gives NaN; in ℚ it gives 0. -/
def VWAP (ohlcv : List (List ℚ)) : List ℚ :=
  (ohlcv.foldl
    (fun (st : ℚ × ℚ × List ℚ) candle =>
      let high := (candle.get? 2).getD 0
      let low := (candle.get? 3).getD 0
      let close := (candle.get? 4).getD 0
      let volume := (candle.get? 5).getD 0
      let typicalPrice := (high + low + close) / 3
      let cumVolume := st.1 + volume
      let cumPriceVolume := st.2.1 + typicalPrice * volume
      (cumVolume, cumPriceVolume, st.2.2 ++ [cumPriceVolume / cumVolume]))
    (0, 0, [])).2.2

/-- Result shape of BollingerBands (analysis.js 82-87). -/
structure BBands where
  upper : ℚ
  middle : ℚ
  lower : ℚ
  squeeze : Bool
deriving DecidableEq, Repr

/-- BollingerBands (analysis.js 78-88).  Math.sqrt is abstracted as the
sqrtFn argument, applied to the population variance of the last period
closes. -/
def BollingerBands (sqrtFn : ℚ → ℚ) (closes : List ℚ) (period : Nat)
    (multiplier : ℚ) : Option BBands :=
  if closes.length < period then none
  else
    let sma := (SMA closes period).getD 0
    let stddev := sqrtFn
      (((sliceLast closes period).foldl
        (fun sum val => sum + (val - sma) ^ 2) 0) / period)
    some { upper := sma + multiplier * stddev
           middle := sma
           lower := sma - multiplier * stddev
           squeeze := stddev < sma * (1 / 10) }

/-- WMA (analysis.js 98-104): linear weights 1..period over the last
period values.  For period 0 the JS code reduces an empty weights array
without an initial value and throws; in ℚ the guard is not reached with a
shorter input, and that regime is outside every claim. -/
def WMA (values : List ℚ) (period : Nat) : Option ℚ :=
  if values.length < period then none
  else
    let weights := (List.range period).map (fun i => (i : ℚ) + 1)
    let weightSum := weights.foldl (· + ·) 0
    let sliced := sliceLast values period
    some (((List.zipWith (· * ·) sliced weights).foldl (· + ·) 0)
      / weightSum)

/-- HMA (analysis.js 90-96): Math.floor(period / 2) is Nat division and
Math.floor(Math.sqrt(period)) is Nat.sqrt.  A null inner WMA coerces to 0
in the JS arithmetic, embedded with getD 0. -/
def HMA (values : List ℚ) (period : Nat) : Option ℚ :=
  if values.length < period then none
  else
    let halfPeriod := period / 2
    let sqrtPeriod := Nat.sqrt period
    let rawHMA := (List.range values.length).map (fun i =>
      2 * ((WMA (values.take (i + 1)) halfPeriod).getD 0)
        - ((WMA (values.take (i + 1)) period).getD 0))
    WMA (sliceLast rawHMA sqrtPeriod) sqrtPeriod

end TechnicalIndicators

/-! ## Aggregated data and the confidence scorer
(src/backend/analysis.js, lines 193-289 and 412-423) -/

/-- One entry of aggregatedData.sources (spec SourceResult). -/
structure SourceResult where
  type : String
  resource : String
  status : String
  error : Option String
deriving DecidableEq, Repr

/-- The standard-format ticker produced by the fallback pool, as consumed
by analysis.js (only the backup provider name is read there, to build the
resource string). -/
structure FallbackTickers where
  backupProvider : String
deriving DecidableEq, Repr

/-- A live price result (live-price.js fetchLivePrice resolved value). -/
structure LivePrice where
  symbol : String
  price : ℚ
  source : String
deriving DecidableEq, Repr

/-- A Bybit payload: for kline requests a list of OHLCV rows; other
payload shapes are irrelevant to every claim and use the same carrier. -/
abbrev BybitPayload := List (List ℚ)

/-- Values stored in aggregatedData.enhancedIndicators. -/
inductive IndValue where
  | num (v : Option ℚ)
  | macdVal (v : Option TechnicalIndicators.MACDResult)
  | vwapVal (v : List ℚ)
  | bbVal (v : Option TechnicalIndicators.BBands)
deriving DecidableEq, Repr

/-- The aggregatedData object built by handleUserQuery.  Dynamic fields
aggregatedData[dataType] are kept as an association list in insertion
order (plan keys are unique, being JS object keys). -/
structure AggregatedData where
  sources : List SourceResult := []
  data : List (String × BybitPayload) := []
  livePrice : Option LivePrice := none
  webContent : Option (List (String × String)) := none
  enhancedIndicators : Option (List (String × IndValue)) := none
  fallbackTickers : Option FallbackTickers := none
deriving DecidableEq, Repr

/-- Number of sources whose status is success. -/
def successCount (a : AggregatedData) : Nat :=
  (a.sources.filter (fun s => s.status == "success")).length

/-- The JS truthiness test aggregatedData.webContent &&
aggregatedData.webContent.length > 0. -/
def hasWebContent (a : AggregatedData) : Bool :=
  match a.webContent with
  | some l => decide (0 < l.length)
  | none => false

/-- calculateConfidenceScore (analysis.js 412-423).  Math.round rounds
half up, exactly Mathlib round on ℚ. -/
def calculateConfidenceScore (a : AggregatedData) : ℤ :=
  let confidence : ℚ := 50
  let totalSources := a.sources.length
  let c1 : ℚ := if 0 < totalSources then
      confidence + ((successCount a : ℚ) / (totalSources : ℚ)) * 30
    else confidence
  let c2 : ℚ := if a.livePrice.isSome then c1 + 10 else c1
  let c3 : ℚ := if a.enhancedIndicators.isSome then c2 + 10 else c2
  let c4 : ℚ := if hasWebContent a then c3 + 5 else c3
  min (max (round c4) 0) 100

/-- The scoring formula exactly as the spec words it: 50, plus 30 times
the success fraction when totalCount is positive, plus 10 for a live
price, 10 for indicator values, 5 for nonempty web content, rounded to
the nearest integer and clamped to [0, 100]. -/
def confidenceScoreSpec (a : AggregatedData) : ℤ :=
  min 100 (max 0 (round (
    (50 : ℚ)
    + (if 0 < a.sources.length then
        30 * ((successCount a : ℚ) / (a.sources.length : ℚ)) else 0)
    + (if a.livePrice.isSome then 10 else 0)
    + (if a.enhancedIndicators.isSome then 10 else 0)
    + (if hasWebContent a then 5 else 0))))

/-! ## Provider fallback pool (src/unnamed/part_004)

UniversalMultiDataProvider holds three providers with fixed priorities
(binance 1, coinbase 2, coingecko 3); their active flags are set once by
reachability probes at initialization and are carried here as a state
value.  The per-provider on-demand fetches catch every transport error and
resolve to null, so they are modelled as an Option-valued environment. -/

/-- Provider names, in the Object.keys insertion order of this.providers. -/
inductive PName where
  | binance
  | coinbase
  | coingecko
deriving DecidableEq, Repr

/-- this.providers[p].priority. -/
def priorityOf : PName → Nat
  | .binance => 1
  | .coinbase => 2
  | .coingecko => 3

/-- Object.keys(this.providers). -/
def pkeys : List PName := [.binance, .coinbase, .coingecko]

/-- Insertion step of sorting by ascending priority. -/
def sortByPriorityInsert (p : PName) : List PName → List PName
  | [] => [p]
  | q :: qs => if priorityOf p ≤ priorityOf q then p :: q :: qs
               else q :: sortByPriorityInsert p qs

/-- Sorting by ascending priority, embedding the comparator sort in
getUniversalData. -/
def sortByPriority : List PName → List PName
  | [] => []
  | p :: ps => sortByPriorityInsert p (sortByPriority ps)

/-- The provider iteration order of getUniversalData. -/
def providerOrder : List PName := sortByPriority pkeys

/-- One entry of this.universalSymbolMap: the per-provider symbol
translation.  Every entry of the source map carries all three fields, but
the lookup guards on presence, kept here as Options. -/
structure SymbolMapping where
  binance : Option String
  coinbase : Option String
  coingecko : Option String
deriving DecidableEq, Repr

/-- mapping[provider]. -/
def mappingFor (m : SymbolMapping) : PName → Option String
  | .binance => m.binance
  | .coinbase => m.coinbase
  | .coingecko => m.coingecko

/-- this.universalSymbolMap (part_004 lines 15-19). -/
def universalSymbolMap (symbol : String) : Option SymbolMapping :=
  if symbol = "BTCUSDT" then
    some ⟨some "BTCUSDT", some "BTC-USD", some "bitcoin"⟩
  else if symbol = "ETHUSDT" then
    some ⟨some "ETHUSDT", some "ETH-USD", some "ethereum"⟩
  else if symbol = "SOLUSDT" then
    some ⟨some "SOLUSDT", some "SOL-USD", some "solana"⟩
  else none

/-- The active flags probed at pool initialization. -/
structure ProvidersState where
  binanceActive : Bool
  coinbaseActive : Bool
  coingeckoActive : Bool
deriving DecidableEq, Repr

/-- this.providers[p].active. -/
def isActive (st : ProvidersState) : PName → Bool
  | .binance => st.binanceActive
  | .coinbase => st.coinbaseActive
  | .coingecko => st.coingeckoActive

/-- The normalized result of one provider fetch (fetchBinanceOnDemand and
friends); change24h is absent for coinbase. -/
structure PriceData where
  provider : String
  price : ℚ
  volume24h : ℚ
  change24h : Option ℚ
deriving DecidableEq, Repr

/-- The loop body of getUniversalData for one provider: fetch only when
the provider is active and the symbol has a mapping for it. -/
def tryProvider (st : ProvidersState) (fetch : PName → String → Option PriceData)
    (m : SymbolMapping) (p : PName) : Option PriceData :=
  if isActive st p then
    match mappingFor m p with
    | some ms => fetch p ms
    | none => none
  else none

/-- getUniversalData (part_004 lines 65-79): null for an unmapped symbol,
else the first non-null fetch among active mapped providers in ascending
priority order, else null. -/
def getUniversalData (st : ProvidersState)
    (fetch : PName → String → Option PriceData) (symbol : String) :
    Option PriceData :=
  match universalSymbolMap symbol with
  | none => none
  | some mapping => providerOrder.findSome? (tryProvider st fetch mapping)

/-- The standard format produced for analysis.js (part_004 127-142); only
the fields the aggregator reads are carried. -/
def convertToStandardFormat (_symbol : String) (backupData : PriceData) :
    FallbackTickers :=
  { backupProvider := backupData.provider }

/-- getBackupData (part_004 116-125): null when the pool failed to
initialize, else the converted first universal result, null when there is
none.  It never throws. -/
def getBackupData (initialized : Bool) (st : ProvidersState)
    (fetch : PName → String → Option PriceData) (symbol : String) :
    Option FallbackTickers :=
  if initialized then
    (getUniversalData st fetch symbol).map (convertToStandardFormat symbol)
  else none

/-! ## Planner (src/unnamed/part_001, SallyBrain) -/

/-- Parameters of one requiredData.bybit entry; only the fields the
fallback planner writes and the aggregator reads. -/
structure BybitParams where
  symbol : String
  interval : Option String := none
  limit : Option Nat := none
deriving DecidableEq, Repr

/-- plan.requiredData.  bybit is an ordered list of dataType keyed
entries; livePrice is the truthiness of the livePrice field; webSearch
and technicalIndicators are present-or-absent arrays (an empty array is
truthy in JS, hence Option of a possibly empty list). -/
structure RequiredData where
  bybit : Option (List (String × BybitParams)) := none
  livePrice : Bool := false
  webSearch : Option (List String) := none
  technicalIndicators : Option (List String) := none
deriving DecidableEq, Repr

/-- The empty object used when plan.requiredData is absent. -/
def emptyRequiredData : RequiredData := {}

/-- A data plan as returned by createDynamicDataPlan. -/
structure Plan where
  isCasual : Bool
  response : String := ""
  requiredData : Option RequiredData := none
deriving DecidableEq, Repr

/-- The fixed casual keyword list (part_001 line 133). -/
def casualKeywords : List String :=
  ["hi", "hello", "thanks", "thank you", "hey", "good morning",
   "good evening"]

/-- The casual-only test of part_001 line 134: the trimmed lowercased
query equals a casual keyword or a casual keyword plus an exclamation
mark. -/
def isCasualOnly (lowerQuery : String) : Bool :=
  casualKeywords.any (fun word =>
    jsTrim lowerQuery == word || jsTrim lowerQuery == word ++ "!")

/-- The keyword symbol table of the fallback planner (part_001 225-229),
in insertion order. -/
def fallbackSymbolMap : List (String × String) :=
  [("btc", "BTCUSDT"), ("bitcoin", "BTCUSDT"),
   ("eth", "ETHUSDT"), ("ethereum", "ETHUSDT"),
   ("sol", "SOLUSDT"), ("solana", "SOLUSDT")]

/-- The detection loop of createFallbackPlan (part_001 231-236): first
table entry whose key occurs in the lowercased query, default BTCUSDT. -/
def detectSymbol (lowerQuery : String) : String :=
  match fallbackSymbolMap.find? (fun kv => strIncludes lowerQuery kv.1) with
  | some kv => kv.2
  | none => "BTCUSDT"

/-- createFallbackPlan (part_001 221-262): the deterministic plan built
without external calls when the oracle fails. -/
def createFallbackPlan (userQuery : String) : Plan :=
  let lowerQuery := jsToLower userQuery
  let detectedSymbol := detectSymbol lowerQuery
  let rd : RequiredData :=
    if strIncludes lowerQuery "price" || strIncludes lowerQuery "cost" then
      { bybit := some [("tickers", { symbol := detectedSymbol })]
        livePrice := true
        webSearch := some [detectedSymbol ++ " current price"]
        technicalIndicators := some [] }
    else if strIncludes lowerQuery "analysis"
        || strIncludes lowerQuery "technical" then
      { bybit := some
          [("kline", { symbol := detectedSymbol, interval := some "D",
                       limit := some 50 }),
           ("tickers", { symbol := detectedSymbol })]
        livePrice := false
        webSearch := some [detectedSymbol ++ " technical analysis"]
        technicalIndicators := some ["SMA20", "RSI14", "MACD"] }
    else
      { bybit := some [("tickers", { symbol := detectedSymbol })]
        livePrice := false
        webSearch := some [userQuery ++ " cryptocurrency"]
        technicalIndicators := some [] }
  { isCasual := false, requiredData := some rd }

/-- A recent-context message as built by getRecentMessages. -/
structure RecentMsg where
  role : String
  content : String
deriving DecidableEq, Repr

/-- createDynamicDataPlan (part_001 123-216).  The oracle argument is the
resolved-or-rejected queryLocalLLM call; on a purely casual query with no
recent context the oracle is never consulted, and on oracle failure the
deterministic fallback plan is produced. -/
def createDynamicDataPlan (oracle : Except String Plan)
    (userQuery : String) (recentContext : List RecentMsg) : Plan :=
  let lowerQuery := jsToLower userQuery
  if isCasualOnly lowerQuery && recentContext.length == 0 then
    { isCasual := true
      response := "Hello! I\x27m Sally, your dynamic crypto analysis AI." }
  else
    match oracle with
    | .ok plan => plan
    | .error _ => createFallbackPlan userQuery

/-! ## Data aggregator (src/backend/analysis.js, handleUserQuery 193-289)

The aggregation loop is embedded as a fold over the plan, threading the
aggregatedData object plus a trace of the external calls issued.  Each
external dependency is a field of the environment. -/

/-- The outcome environment for every external call one aggregation run
can make.  sqrtFn abstracts Math.sqrt for the indicator step. -/
structure FetchEnv where
  bybit : String → BybitParams → Except String BybitPayload
  backup : String → Except String (Option FallbackTickers)
  live : Except String (Option LivePrice)
  web : String → Except String String
  sqrtFn : ℚ → ℚ

/-- Trace entries for the external calls the aggregator awaits. -/
inductive ExtCall where
  | bybitCall (dataType : String) (params : BybitParams)
  | fallbackCall (symbol : String)
  | liveCall
  | webCall (q : String)
deriving DecidableEq, Repr

/-- Trace membership test for fallback invocations. -/
def isFallbackCall : ExtCall → Bool
  | .fallbackCall _ => true
  | _ => false

/-- Trace membership test for live-price invocations. -/
def isLiveCall : ExtCall → Bool
  | .liveCall => true
  | _ => false

/-- Aggregation state: the mutable aggregatedData plus the call trace. -/
structure AggSt where
  agg : AggregatedData
  calls : List ExtCall
deriving Repr

/-- tryFallbackData (analysis.js 389-410): a resolved non-null backup
pushes a success fallback source and stores the ticker, a resolved null
pushes nothing, a rejection pushes a failed fallback source. -/
def tryFallbackData (env : FetchEnv) (symbol : String) (st : AggSt) : AggSt :=
  let st := { st with calls := st.calls ++ [ExtCall.fallbackCall symbol] }
  match env.backup symbol with
  | .ok (some fallbackData) =>
    { st with agg := { st.agg with
        fallbackTickers := some fallbackData
        sources := st.agg.sources ++
          [⟨"fallback", fallbackData.backupProvider ++ "_ticker",
            "success", none⟩] } }
  | .ok none => st
  | .error e =>
    { st with agg := { st.agg with
        sources := st.agg.sources ++
          [⟨"fallback", "universal_fallback", "failed", some e⟩] } }

/-- One iteration of the requiredData.bybit loop (analysis.js 197-218):
success stores the payload and a success source; failure pushes a failed
source and, exactly when the dataType contains "tickers", runs the
fallback compensation for params.symbol. -/
def processBybitEntry (env : FetchEnv) (st : AggSt)
    (entry : String × BybitParams) : AggSt :=
  let st := { st with calls := st.calls ++ [ExtCall.bybitCall entry.1 entry.2] }
  match env.bybit entry.1 entry.2 with
  | .ok result =>
    { st with agg := { st.agg with
        data := st.agg.data ++ [(entry.1, result)]
        sources := st.agg.sources ++ [⟨"bybit", entry.1, "success", none⟩] } }
  | .error e =>
    let st := { st with agg := { st.agg with
        sources := st.agg.sources ++
          [⟨"bybit", entry.1, "failed", some e⟩] } }
    if strIncludes entry.1 "tickers" then
      tryFallbackData env entry.2.symbol st
    else st

/-- The requiredData.bybit stage (analysis.js 196-219). -/
def runBybit (env : FetchEnv) (rd : RequiredData) (st : AggSt) : AggSt :=
  match rd.bybit with
  | some entries => entries.foldl (processBybitEntry env) st
  | none => st

/-- The livePrice stage (analysis.js 221-241): a resolved price pushes a
success source and stores it, a resolved null pushes nothing, a rejection
pushes a failed source. -/
def runLivePrice (env : FetchEnv) (rd : RequiredData) (st : AggSt) : AggSt :=
  if rd.livePrice then
    let st := { st with calls := st.calls ++ [ExtCall.liveCall] }
    match env.live with
    | .ok (some lp) =>
      { st with agg := { st.agg with
          livePrice := some lp
          sources := st.agg.sources ++
            [⟨"live_price", "live_price_api", "success", none⟩] } }
    | .ok none => st
    | .error e =>
      { st with agg := { st.agg with
          sources := st.agg.sources ++
            [⟨"live_price", "live_price_api", "failed", some e⟩] } }
  else st

/-- One iteration of the webSearch loop (analysis.js 245-263). -/
def processWebQuery (env : FetchEnv) (st : AggSt) (q : String) : AggSt :=
  let st := { st with calls := st.calls ++ [ExtCall.webCall q] }
  match env.web q with
  | .ok content =>
    { st with agg := { st.agg with
        webContent := some ((st.agg.webContent.getD []) ++ [(q, content)])
        sources := st.agg.sources ++ [⟨"web", q, "success", none⟩] } }
  | .error e =>
    { st with agg := { st.agg with
        sources := st.agg.sources ++ [⟨"web", q, "failed", some e⟩] } }

/-- The webSearch stage (analysis.js 243-264): the webContent array is
created before the loop, so it is an empty array even when every query
fails. -/
def runWeb (env : FetchEnv) (rd : RequiredData) (st : AggSt) : AggSt :=
  match rd.webSearch with
  | some queries =>
    let st := { st with agg := { st.agg with webContent := some [] } }
    queries.foldl (processWebQuery env) st
  | none => st

/-- calculateRequestedIndicators (analysis.js 352-387): klines are
reversed to chronological order, closes taken from column 4 with the JS
parseFloat-or-0 idiom, and each requested name dispatched by prefix with
a parseInt-or-default period.  Unknown names are skipped.  The function
is total, so the try/catch around each indicator never fires. -/
def calculateRequestedIndicators (sqrtFn : ℚ → ℚ)
    (klineData : BybitPayload) (indicatorNames : List String) :
    List (String × IndValue) :=
  let klines := klineData.reverse
  let closes := klines.map (fun k => (k.get? 4).getD 0)
  indicatorNames.foldl (fun results ind =>
    let upperIndicator := jsToUpper ind
    if jsStartsWith upperIndicator "SMA" then
      let period := jsParseIntDefault (jsReplaceFirst upperIndicator "SMA") 20
      results ++ [("sma" ++ toString period,
        IndValue.num (TechnicalIndicators.SMA closes period))]
    else if jsStartsWith upperIndicator "EMA" then
      let period := jsParseIntDefault (jsReplaceFirst upperIndicator "EMA") 12
      results ++ [("ema" ++ toString period,
        IndValue.num (TechnicalIndicators.EMA closes period))]
    else if jsStartsWith upperIndicator "RSI" then
      let period := jsParseIntDefault (jsReplaceFirst upperIndicator "RSI") 14
      results ++ [("rsi" ++ toString period,
        IndValue.num (TechnicalIndicators.RSI closes period))]
    else if upperIndicator == "MACD" then
      results ++ [("macd",
        IndValue.macdVal (TechnicalIndicators.MACD closes 12 26 9))]
    else if upperIndicator == "VWAP" then
      results ++ [("vwap", IndValue.vwapVal (TechnicalIndicators.VWAP klines))]
    else if upperIndicator == "BOLLINGERBANDS"
        || upperIndicator == "BOLLINGER BANDS" then
      results ++ [("bollingerBands",
        IndValue.bbVal (TechnicalIndicators.BollingerBands sqrtFn closes 20 2))]
    else if jsStartsWith upperIndicator "HMA" then
      let period := jsParseIntDefault (jsReplaceFirst upperIndicator "HMA") 9
      results ++ [("hma" ++ toString period,
        IndValue.num (TechnicalIndicators.HMA closes period))]
    else results) []

/-- The technicalIndicators stage (analysis.js 266-286): runs only when
the plan carries a technicalIndicators field (truthy even when empty) and
a kline payload was stored; the computation is total so only the success
source is reachable. -/
def runCalc (env : FetchEnv) (rd : RequiredData) (st : AggSt) : AggSt :=
  match rd.technicalIndicators with
  | some names =>
    match st.agg.data.lookup "kline" with
    | some kl =>
      { st with agg := { st.agg with
          enhancedIndicators :=
            some (calculateRequestedIndicators env.sqrtFn kl names)
          sources := st.agg.sources ++
            [⟨"calculation", "technicalIndicators", "success", none⟩] } }
    | none => st
  | none => st

/-- The full aggregation phase of handleUserQuery (analysis.js 193-286),
in source order: bybit entries, live price, web searches, indicators. -/
def aggregate (env : FetchEnv) (rd : RequiredData) : AggSt :=
  runCalc env rd (runWeb env rd (runLivePrice env rd
    (runBybit env rd ⟨{}, []⟩)))

/-! ## Memory helpers and the top-level handler
(src/unnamed/part_000 and src/backend/analysis.js 133-324) -/

/-- A stored chat message; type is "user" or "ai".  Lists of ChatMsg are
ordered newest first, embedding the sort({timestamp: -1}) of the store
queries. -/
structure ChatMsg where
  type : String
  content : String
deriving DecidableEq, Repr

/-- getLastUserMessage (part_000 69-78): the user-typed messages newest
first, limited to 2, and then msgs[1]?.content || null — so a missing
second message and an empty-string content both yield null. -/
def getLastUserMessage (msgs : List ChatMsg) : Option String :=
  let m2 := (msgs.filter (fun m => m.type == "user")).take 2
  match m2.get? 1 with
  | some m => if m.content = "" then none else some m.content
  | none => none

/-- getRecentMessages (part_000 55-67): newest-first limit, reversed to
chronological order, with type "ai" mapped to role assistant. -/
def getRecentMessages (msgs : List ChatMsg) (limit : Nat) : List RecentMsg :=
  (msgs.take limit).reverse.map (fun m =>
    { role := if m.type == "ai" then "assistant" else "user"
      content := m.content })

/-- isLastQuestionQuery (analysis.js 133-142). -/
def isLastQuestionQuery (query : String) : Bool :=
  let s := jsToLower (jsTrim query)
  s == "what did i ask just now" ||
  s == "what did i ask just now?" ||
  s == "what did i ask" ||
  s == "what was my last question" ||
  s == "last question?" ||
  s == "what was my previous question" ||
  s == "my last question"

/-- The structured result handleUserQuery returns to its caller. -/
structure HandlerResult where
  isAnalysis : Bool
  response : String
  dataSources : Option (List SourceResult) := none
  hasLivePrice : Option Bool := none
  confidenceScore : Option Int := none
deriving DecidableEq, Repr

/-- handleUserQuery (analysis.js 147-324).  finalText stands for the
summarization-oracle response used for analysis answers; chatMsgs is the
chat message store for the request chat, newest first; hasMemory is the
presence of the memory manager.  The memory-update step after the answer
does not affect the returned value and is not carried. -/
def handleUserQuery (env : FetchEnv) (oracle : Except String Plan)
    (finalText : String) (hasMemory : Bool) (chatId : Option String)
    (chatMsgs : List ChatMsg) (userQuery : String) : HandlerResult :=
  if isLastQuestionQuery userQuery && chatId.isSome && hasMemory then
    match getLastUserMessage chatMsgs with
    | some lastQuestion =>
      { isAnalysis := false
        response := "Your previous question was: \"" ++ lastQuestion ++ "\"" }
    | none =>
      { isAnalysis := false
        response := "No previous question found in this chat." }
  else
    let recent := if hasMemory && chatId.isSome then
        getRecentMessages chatMsgs 12 else []
    let plan := createDynamicDataPlan oracle userQuery recent
    if plan.isCasual then
      { isAnalysis := false, response := plan.response }
    else
      let rd := plan.requiredData.getD emptyRequiredData
      let st := aggregate env rd
      { isAnalysis := true
        response := finalText
        dataSources := some st.agg.sources
        hasLivePrice := some st.agg.livePrice.isSome
        confidenceScore := some (calculateConfidenceScore st.agg) }

/-! ## Helper lemmas for the confidence scorer -/

/-- The pre-rounding confidence value, written as one sum; equal to the
let-chain of calculateConfidenceScore. -/
def confidenceRat (a : AggregatedData) : ℚ :=
  (if 0 < a.sources.length then
     50 + ((successCount a : ℚ) / (a.sources.length : ℚ)) * 30 else 50)
  + (if a.livePrice.isSome then 10 else 0)
  + (if a.enhancedIndicators.isSome then 10 else 0)
  + (if hasWebContent a then 5 else 0)

lemma calculateConfidenceScore_eq (a : AggregatedData) :
    calculateConfidenceScore a = min (max (round (confidenceRat a)) 0) 100 := by
  simp only [calculateConfidenceScore]
  congr 1
  congr 1
  congr 1
  simp only [confidenceRat]
  split_ifs <;> ring

lemma successCount_le_total (a : AggregatedData) :
    successCount a ≤ a.sources.length :=
  List.length_filter_le _ _

lemma confidenceRat_bounds (a : AggregatedData) :
    50 ≤ confidenceRat a ∧ confidenceRat a ≤ 105 := by
  have hs : (successCount a : ℚ) ≤ (a.sources.length : ℚ) := by
    exact_mod_cast successCount_le_total a
  simp only [confidenceRat]
  by_cases ht : 0 < a.sources.length
  · have htq : (0 : ℚ) < (a.sources.length : ℚ) := by exact_mod_cast ht
    have hr1 : (successCount a : ℚ) / (a.sources.length : ℚ) ≤ 1 :=
      (div_le_one htq).mpr hs
    have hr0 : (0 : ℚ) ≤ (successCount a : ℚ) / (a.sources.length : ℚ) := by
      positivity
    rw [if_pos ht]
    constructor <;> (split_ifs <;> linarith)
  · rw [if_neg ht]
    constructor <;> (split_ifs <;> linarith)

lemma round_ge_int {n : ℤ} {x : ℚ} (h : (n : ℚ) ≤ x) : n ≤ round x := by
  rw [round_eq]
  exact Int.le_floor.mpr (by linarith)

lemma round_mono_rat {x y : ℚ} (h : x ≤ y) : round x ≤ round y := by
  rw [round_eq, round_eq]
  exact Int.floor_le_floor (by linarith)

lemma score_bounds (a : AggregatedData) :
    50 ≤ calculateConfidenceScore a ∧ calculateConfidenceScore a ≤ 100 := by
  rw [calculateConfidenceScore_eq]
  have h := confidenceRat_bounds a
  refine ⟨le_min ?_ (by norm_num), min_le_right _ _⟩
  have h50 : (50 : ℤ) ≤ round (confidenceRat a) :=
    round_ge_int (by exact_mod_cast h.1)
  exact le_trans h50 (le_max_left _ _)

/-! ## Claim theorems about the scorer -/

/-- Claim C2: for every AggregatedData the confidence scorer returns
exactly the spec formula — 50 plus 30 times successCount over totalCount
(the term included only when totalCount is positive), plus 10 for a live
price, 10 for indicator values and 5 for nonempty web content, rounded to
the nearest integer (Math.round, half up) and clamped to [0, 100].  Both
sides are pure functions of the AggregatedData, so determinism on equal
inputs is intrinsic. -/
theorem claim2_confidence_formula :
    ∀ a : AggregatedData, calculateConfidenceScore a = confidenceScoreSpec a := by
  intro a
  rw [calculateConfidenceScore_eq]
  simp only [confidenceScoreSpec]
  rw [min_comm, max_comm]
  congr 1
  congr 1
  congr 1
  simp only [confidenceRat]
  split_ifs <;> ring

/-- Claim C3: every indicator function of the library returns the
insufficient-data sentinel none on any price series shorter than the
length it requires (period for SMA, EMA, BollingerBands, HMA, WMA;
period + 1 for RSI; slow + signal for MACD); being total Lean functions
over the same guard structure as the source, they cannot throw. -/
theorem claim3_insufficient_data :
    ∀ (xs : List ℚ) (p fast slow signal : Nat) (sq : ℚ → ℚ) (mult : ℚ),
    (xs.length < p → TechnicalIndicators.SMA xs p = none) ∧
    (xs.length < p → TechnicalIndicators.EMA xs p = none) ∧
    (xs.length < p + 1 → TechnicalIndicators.RSI xs p = none) ∧
    (xs.length < slow + signal →
      TechnicalIndicators.MACD xs fast slow signal = none) ∧
    (xs.length < p → TechnicalIndicators.BollingerBands sq xs p mult = none) ∧
    (xs.length < p → TechnicalIndicators.HMA xs p = none) ∧
    (xs.length < p → TechnicalIndicators.WMA xs p = none) := by
  intro xs p fast slow signal sq mult
  refine ⟨fun h => ?_, fun h => ?_, fun h => ?_, fun h => ?_, fun h => ?_,
    fun h => ?_, fun h => ?_⟩
  · simp only [TechnicalIndicators.SMA]; rw [if_pos h]
  · simp only [TechnicalIndicators.EMA]; rw [if_pos h]
  · simp only [TechnicalIndicators.RSI]; rw [if_pos h]
  · simp only [TechnicalIndicators.MACD]; rw [if_pos h]
  · simp only [TechnicalIndicators.BollingerBands]; rw [if_pos h]
  · simp only [TechnicalIndicators.HMA]; rw [if_pos h]
  · simp only [TechnicalIndicators.WMA]; rw [if_pos h]

/-- Witness for C3 at a concrete two-element series. -/
theorem claim3_witness :
    TechnicalIndicators.SMA [1, 2] 3 = none ∧
    TechnicalIndicators.EMA [1, 2] 3 = none ∧
    TechnicalIndicators.RSI [1, 2] 2 = none ∧
    TechnicalIndicators.MACD [1, 2] 12 26 9 = none ∧
    TechnicalIndicators.BollingerBands (fun x => x) [1, 2] 3 2 = none ∧
    TechnicalIndicators.HMA [1, 2] 3 = none ∧
    TechnicalIndicators.WMA [1, 2] 3 = none := by
  have h := claim3_insufficient_data [1, 2] 3 12 26 9 (fun x => x) 2
  exact ⟨h.1 (by decide), h.2.1 (by decide), h.2.2.1 (by decide),
    h.2.2.2.1 (by decide), h.2.2.2.2.1 (by decide),
    h.2.2.2.2.2.1 (by decide), h.2.2.2.2.2.2 (by decide)⟩

/-- Claim C9: the confidence score always lies in [0, 100], and with the
total source count and the presence features held fixed it is monotone
non-decreasing in the success count. -/
theorem claim9_score_monotone :
    ∀ a b : AggregatedData,
    (0 ≤ calculateConfidenceScore a ∧ calculateConfidenceScore a ≤ 100) ∧
    (a.sources.length = b.sources.length →
     a.livePrice.isSome = b.livePrice.isSome →
     a.enhancedIndicators.isSome = b.enhancedIndicators.isSome →
     hasWebContent a = hasWebContent b →
     successCount a ≤ successCount b →
     calculateConfidenceScore a ≤ calculateConfidenceScore b) := by
  intro a b
  constructor
  · have h := score_bounds a
    exact ⟨le_trans (by norm_num) h.1, h.2⟩
  · intro h1 h2 h3 h4 h5
    rw [calculateConfidenceScore_eq, calculateConfidenceScore_eq]
    have hcc : confidenceRat a ≤ confidenceRat b := by
      simp only [confidenceRat]
      rw [h1, h2, h3, h4]
      have hs : (successCount a : ℚ) ≤ (successCount b : ℚ) := by
        exact_mod_cast h5
      have hd : (successCount a : ℚ) / (b.sources.length : ℚ)
          ≤ (successCount b : ℚ) / (b.sources.length : ℚ) :=
        div_le_div_of_nonneg_right hs (by positivity)
      have hd30 := mul_le_mul_of_nonneg_right hd
        (by norm_num : (0 : ℚ) ≤ 30)
      split_ifs <;> linarith
    exact min_le_min (max_le_max (round_mono_rat hcc) le_rfl) le_rfl

/-- Witness for C9: one failed source versus one successful source. -/
theorem claim9_witness :
    calculateConfidenceScore { sources := [⟨"bybit", "t", "failed", some "x"⟩] }
      ≤ calculateConfidenceScore { sources := [⟨"bybit", "t", "success", none⟩] } :=
  (claim9_score_monotone _ _).2 rfl rfl rfl rfl (by decide)

/-- Claim C10: the score is an integer of at least 50 (the actual range is
[50, 100], tighter than the specified [0, 100]): the base is 50 and every
contribution is nonnegative, so the lower clamp never fires; when every
source failed the score is exactly 50 plus the presence bonuses. -/
theorem claim10_score_floor :
    ∀ a : AggregatedData,
    50 ≤ calculateConfidenceScore a ∧ calculateConfidenceScore a ≤ 100 ∧
    ((∀ s ∈ a.sources, s.status = "failed") →
      calculateConfidenceScore a =
        50 + (if a.livePrice.isSome then 10 else 0)
           + (if a.enhancedIndicators.isSome then 10 else 0)
           + (if hasWebContent a then 5 else 0)) := by
  intro a
  refine ⟨(score_bounds a).1, (score_bounds a).2, fun h => ?_⟩
  have hfil : a.sources.filter (fun s => s.status == "success") = [] := by
    refine List.filter_eq_nil_iff.mpr fun s hs => ?_
    rw [h s hs]
    decide
  have hsc : (successCount a : ℚ) = 0 := by
    simp only [successCount, hfil, List.length_nil, Nat.cast_zero]
  set B : ℤ := (if a.livePrice.isSome then 10 else 0)
    + (if a.enhancedIndicators.isSome then 10 else 0)
    + (if hasWebContent a then 5 else 0) with hB
  have hc : confidenceRat a = ((50 + B : ℤ) : ℚ) := by
    simp only [confidenceRat, hsc, zero_div, zero_mul, add_zero, ite_self, hB]
    push_cast
    split_ifs <;> norm_num
  have hB0 : 0 ≤ B ∧ B ≤ 25 := by
    rw [hB]
    constructor <;> (split_ifs <;> norm_num)
  rw [calculateConfidenceScore_eq, hc, round_intCast,
    max_eq_left (by omega), min_eq_left (by omega), hB]
  ring

/-- Witness for C10 at a single failed source: the score is exactly 50. -/
theorem claim10_witness :
    calculateConfidenceScore
      { sources := [⟨"bybit", "tickers", "failed", some "x"⟩] } = 50 := by
  have h := (claim10_score_floor
    { sources := [⟨"bybit", "tickers", "failed", some "x"⟩] }).2.2 (by decide)
  simpa using h

/-! ## Claim C8: the RSI formula -/

/-- The trailing window of period consecutive deltas RSI sums over. -/
def rsiDeltas (closes : List ℚ) (period : Nat) : List ℚ :=
  let window := closes.drop (closes.length - (period + 1))
  List.zipWith (fun a b => a - b) window.tail window

/-- The average of the positive deltas of the window, as the spec words
it. -/
def avgGainSpec (closes : List ℚ) (period : Nat) : ℚ :=
  ((rsiDeltas closes period).filter (fun c => decide (0 < c))).sum / period

/-- The average magnitude of the negative deltas of the window, as the
spec words it. -/
def avgLossSpec (closes : List ℚ) (period : Nat) : ℚ :=
  (-((rsiDeltas closes period).filter (fun c => decide (c < 0))).sum) / period

lemma foldl_gainloss (l : List ℚ) : ∀ a b : ℚ,
    l.foldl (fun (p : ℚ × ℚ) change =>
        if change > 0 then (p.1 + change, p.2) else (p.1, p.2 - change))
      (a, b)
    = (a + (l.filter (fun c => decide (0 < c))).sum,
       b - (l.filter (fun c => decide (c < 0))).sum) := by
  induction l with
  | nil => intro a b; simp
  | cons c cs ih =>
    intro a b
    simp only [List.foldl_cons, List.filter_cons]
    by_cases h : 0 < c
    · have hn : ¬ c < 0 := by linarith
      rw [if_pos h]
      rw [ih]
      simp [h, hn, List.sum_cons]
      try ring
    · rw [if_neg h]
      rw [ih]
      by_cases h2 : c < 0
      · simp [h, h2, List.sum_cons]
        try ring
      · have hc0 : c = 0 := le_antisymm (not_lt.mp h) (not_lt.mp h2)
        simp [h, h2, hc0]

/-- Claim C8: on every series long enough for RSI with period 14, the
result is exactly 100 when the average loss over the trailing 14-delta
window is 0, and exactly 100 - 100 / (1 + avgGain / avgLoss) otherwise,
with avgGain and avgLoss the simple averages of the positive and negative
deltas of that window. -/
theorem claim8_rsi_formula :
    ∀ closes : List ℚ, 15 ≤ closes.length →
    (avgLossSpec closes 14 = 0 →
      TechnicalIndicators.RSI closes 14 = some 100) ∧
    (avgLossSpec closes 14 ≠ 0 →
      TechnicalIndicators.RSI closes 14 =
        some (100 - 100 / (1 + avgGainSpec closes 14 / avgLossSpec closes 14))) := by
  intro closes hlen
  have hnot : ¬ closes.length < 14 + 1 := by omega
  have hrsi : TechnicalIndicators.RSI closes 14 =
      (if avgLossSpec closes 14 = 0 then some 100
       else some (100 - 100 /
         (1 + avgGainSpec closes 14 / avgLossSpec closes 14))) := by
    simp only [TechnicalIndicators.RSI]
    rw [if_neg hnot]
    rw [foldl_gainloss]
    simp only [avgGainSpec, avgLossSpec, rsiDeltas, zero_add, zero_sub,
      neg_div]
  constructor
  · intro h
    rw [hrsi, if_pos h]
  · intro h
    rw [hrsi, if_neg h]

/-- Witness for C8: fifteen strictly increasing closes have no losing
delta, so RSI is exactly 100. -/
theorem claim8_witness :
    TechnicalIndicators.RSI
      [1, 2, 3, 4, 5, 6, 7, 8, 9, 10, 11, 12, 13, 14, 15] 14 = some 100 :=
  (claim8_rsi_formula [1, 2, 3, 4, 5, 6, 7, 8, 9, 10, 11, 12, 13, 14, 15]
    (by decide)).1 (by norm_num [avgLossSpec, rsiDeltas])

/-! ## Claim C5: the fallback pool lookup -/

lemma tryProvider_eq_none_of (st : ProvidersState)
    (fetch : PName → String → Option PriceData) (m : SymbolMapping) (p : PName)
    (H : ∀ ms, isActive st p = true → mappingFor m p = some ms →
      fetch p ms = none) :
    tryProvider st fetch m p = none := by
  unfold tryProvider
  by_cases hact : isActive st p = true
  · rw [if_pos hact]
    cases hm : mappingFor m p with
    | some ms => exact H ms hact hm
    | none => rfl
  · rw [if_neg hact]

lemma tryProvider_eq_some (st : ProvidersState)
    (fetch : PName → String → Option PriceData) (m : SymbolMapping) (p : PName)
    (d : PriceData) (h : tryProvider st fetch m p = some d) :
    isActive st p = true ∧ ∃ ms, mappingFor m p = some ms ∧ fetch p ms = some d := by
  unfold tryProvider at h
  by_cases hact : isActive st p = true
  · rw [if_pos hact] at h
    cases hm : mappingFor m p with
    | some ms =>
      rw [hm] at h
      exact ⟨hact, ms, rfl, h⟩
    | none =>
      rw [hm] at h
      exact absurd h (by simp)
  · rw [if_neg hact] at h
    exact absurd h (by simp)

lemma tryProvider_none_elim (st : ProvidersState)
    (fetch : PName → String → Option PriceData) (m : SymbolMapping) (p : PName)
    (ms : String) (h : tryProvider st fetch m p = none)
    (ha : isActive st p = true) (hm : mappingFor m p = some ms) :
    fetch p ms = none := by
  unfold tryProvider at h
  rw [if_pos ha, hm] at h
  exact h

lemma providerOrder_eq :
    providerOrder = [PName.binance, PName.coinbase, PName.coingecko] := rfl

/-- Claim C5: the fallback pool lookup returns null for an unmapped
symbol; it returns null when every active mapped provider fetch is null
(a provider without a mapping is merely skipped); any non-null result is
the value of one active mapped provider all of whose strictly
lower-priority active mapped competitors returned null — the first
non-null result, without merging; and getBackupData returns null (never
throws) when the pool is uninitialized or the lookup found nothing. -/
theorem claim5_fallback_pool_order :
    ∀ (st : ProvidersState) (fetch : PName → String → Option PriceData)
      (symbol : String),
    (universalSymbolMap symbol = none →
      getUniversalData st fetch symbol = none) ∧
    (∀ m, universalSymbolMap symbol = some m →
      ((∀ p ms, isActive st p = true → mappingFor m p = some ms →
          fetch p ms = none) → getUniversalData st fetch symbol = none) ∧
      (∀ d, getUniversalData st fetch symbol = some d →
        ∃ p ms, isActive st p = true ∧ mappingFor m p = some ms ∧
          fetch p ms = some d ∧
          ∀ q ms2, priorityOf q < priorityOf p → isActive st q = true →
            mappingFor m q = some ms2 → fetch q ms2 = none)) ∧
    getBackupData false st fetch symbol = none ∧
    (getUniversalData st fetch symbol = none →
      getBackupData true st fetch symbol = none) := by
  intro st fetch symbol
  refine ⟨?_, ?_, ?_, ?_⟩
  · intro h
    unfold getUniversalData
    rw [h]
  · intro m hm
    constructor
    · intro H
      unfold getUniversalData
      rw [hm, providerOrder_eq]
      show List.findSome? (tryProvider st fetch m)
        [PName.binance, PName.coinbase, PName.coingecko] = none
      rw [List.findSome?_cons,
        tryProvider_eq_none_of st fetch m .binance (fun ms => H .binance ms)]
      rw [List.findSome?_cons,
        tryProvider_eq_none_of st fetch m .coinbase (fun ms => H .coinbase ms)]
      rw [List.findSome?_cons,
        tryProvider_eq_none_of st fetch m .coingecko (fun ms => H .coingecko ms)]
      rfl
    · intro d hd0
      unfold getUniversalData at hd0
      rw [hm, providerOrder_eq] at hd0
      have hd : List.findSome? (tryProvider st fetch m)
          [PName.binance, PName.coinbase, PName.coingecko] = some d := hd0
      rw [List.findSome?_cons] at hd
      cases h1 : tryProvider st fetch m .binance with
      | some d1 =>
        rw [h1] at hd
        obtain ⟨ha, ms, hmm, hf⟩ := tryProvider_eq_some st fetch m .binance d1 h1
        obtain rfl : d1 = d := by injection hd
        refine ⟨.binance, ms, ha, hmm, hf, ?_⟩
        intro q ms2 hq
        cases q <;> simp [priorityOf] at hq
      | none =>
        rw [h1] at hd
        rw [List.findSome?_cons] at hd
        cases h2 : tryProvider st fetch m .coinbase with
        | some d2 =>
          rw [h2] at hd
          obtain ⟨ha, ms, hmm, hf⟩ := tryProvider_eq_some st fetch m .coinbase d2 h2
          obtain rfl : d2 = d := by injection hd
          refine ⟨.coinbase, ms, ha, hmm, hf, ?_⟩
          intro q ms2 hq haq hmq
          cases q with
          | binance => exact tryProvider_none_elim st fetch m .binance ms2 h1 haq hmq
          | coinbase => simp [priorityOf] at hq
          | coingecko => simp [priorityOf] at hq
        | none =>
          rw [h2] at hd
          rw [List.findSome?_cons] at hd
          cases h3 : tryProvider st fetch m .coingecko with
          | some d3 =>
            rw [h3] at hd
            obtain ⟨ha, ms, hmm, hf⟩ :=
              tryProvider_eq_some st fetch m .coingecko d3 h3
            obtain rfl : d3 = d := by injection hd
            refine ⟨.coingecko, ms, ha, hmm, hf, ?_⟩
            intro q ms2 hq haq hmq
            cases q with
            | binance => exact tryProvider_none_elim st fetch m .binance ms2 h1 haq hmq
            | coinbase => exact tryProvider_none_elim st fetch m .coinbase ms2 h2 haq hmq
            | coingecko => simp [priorityOf] at hq
          | none =>
            rw [h3] at hd
            exact absurd hd (by simp)
  · rfl
  · intro h
    unfold getBackupData
    rw [h]
    rfl

/-- Witness pool state for C5: binance unreachable, the other two
active. -/
def stW : ProvidersState := ⟨false, true, true⟩

/-- Witness fetch environment for C5: every provider would answer, with
distinct payloads. -/
def fetchW : PName → String → Option PriceData := fun p _ =>
  match p with
  | .binance => some ⟨"binance", 9, 3, none⟩
  | .coinbase => some ⟨"coinbase", 5, 1, none⟩
  | .coingecko => some ⟨"coingecko", 7, 2, none⟩

/-- Witness for C5: an unmapped symbol yields none (via the theorem), and
the spec scenario — P1 inactive, P2 and P3 active and answering — yields
the priority-2 result. -/
theorem claim5_witness :
    getUniversalData stW fetchW "XRPUSDT" = none ∧
    getUniversalData stW fetchW "BTCUSDT" = some ⟨"coinbase", 5, 1, none⟩ :=
  ⟨(claim5_fallback_pool_order stW fetchW "XRPUSDT").1 (by decide),
   by decide⟩

/-! ## Claim C7: the deterministic fallback plan -/

/-- Claim C7: whenever the oracle call fails (and the casual shortcut does
not apply — it never does for a data query like "Bitcoin price"), the
planner returns exactly the deterministic fallback plan, a pure function
of the query; and that plan for "Bitcoin price" is a non-casual plan whose
bybit entries are exactly the tickers request for BTCUSDT with the
livePrice flag set. -/
theorem claim7_fallback_plan :
    ∀ (e q : String) (ctx : List RecentMsg),
    (¬ (isCasualOnly (jsToLower q) = true ∧ ctx = []) →
      createDynamicDataPlan (Except.error e) q ctx = createFallbackPlan q) ∧
    ((createFallbackPlan "Bitcoin price").isCasual = false ∧
     ((createFallbackPlan "Bitcoin price").requiredData.getD
        emptyRequiredData).bybit =
       some [("tickers", { symbol := "BTCUSDT" })] ∧
     ((createFallbackPlan "Bitcoin price").requiredData.getD
        emptyRequiredData).livePrice = true) := by
  intro e q ctx
  constructor
  · intro h
    unfold createDynamicDataPlan
    rw [if_neg]
    simp only [Bool.and_eq_true, beq_iff_eq, List.length_eq_zero, not_and]
    intro h1 h2
    exact h ⟨h1, h2⟩
  · exact ⟨by decide, by decide, by decide⟩

/-- Witness for C7: a concrete failing oracle on the query
"Bitcoin price". -/
theorem claim7_witness :
    createDynamicDataPlan (Except.error "boom") "Bitcoin price" [] =
      createFallbackPlan "Bitcoin price" :=
  (claim7_fallback_plan "boom" "Bitcoin price" []).1 (by decide)

/-! ## Claim C6: the last-question special case -/

/-- An inert environment for concrete runs: every external call fails or
resolves empty. -/
def envTrivial : FetchEnv :=
  { bybit := fun _ _ => .error "down"
    backup := fun _ => .ok none
    live := .ok none
    web := fun _ => .error "down"
    sqrtFn := fun _ => 0 }

/-- Claim C6 (amended): when the query matches a last-question phrasing
and chat memory exists, the handler answers without consulting the
planning oracle or any fetcher (the result is the same for every
environment and oracle), returning isAnalysis false and quoting the
second-most-recent user message — except that, through the JS
truthiness of msgs[1]?.content, an empty-string second message is
reported as not found, as is a missing one. -/
theorem claim6_last_question :
    ∀ (env : FetchEnv) (oracle : Except String Plan) (finalText : String)
      (chatId : Option String) (chatMsgs : List ChatMsg) (q : String),
    isLastQuestionQuery q = true → chatId.isSome = true →
    (handleUserQuery env oracle finalText true chatId chatMsgs q).isAnalysis
        = false ∧
    (handleUserQuery env oracle finalText true chatId chatMsgs q).response =
      (match ((chatMsgs.filter (fun m => m.type == "user")).take 2).get? 1 with
       | some m =>
         if m.content = "" then "No previous question found in this chat."
         else "Your previous question was: \"" ++ m.content ++ "\""
       | none => "No previous question found in this chat.") := by
  intro env oracle finalText chatId chatMsgs q hq hc
  unfold handleUserQuery
  rw [if_pos (by rw [hq, hc]; rfl)]
  cases hm : getLastUserMessage chatMsgs with
  | some lastq =>
    simp only [hm]
    refine ⟨by trivial, ?_⟩
    simp only [getLastUserMessage] at hm
    cases hm2 : ((chatMsgs.filter (fun m => m.type == "user")).take 2).get? 1 with
    | some m =>
      simp only [hm2] at hm
      by_cases hcon : m.content = ""
      · rw [if_pos hcon] at hm
        exact absurd hm (by simp)
      · rw [if_neg hcon] at hm
        have hlq : m.content = lastq := by injection hm
        show _ = if m.content = "" then _ else
          "Your previous question was: \"" ++ m.content ++ "\""
        rw [if_neg hcon, hlq]
    | none =>
      simp only [hm2] at hm
      exact absurd hm (by simp)
  | none =>
    simp only [hm]
    refine ⟨by trivial, ?_⟩
    simp only [getLastUserMessage] at hm
    cases hm2 : ((chatMsgs.filter (fun m => m.type == "user")).take 2).get? 1 with
    | some m =>
      simp only [hm2] at hm
      by_cases hcon : m.content = ""
      · show _ = if m.content = "" then
            "No previous question found in this chat." else _
        rw [if_pos hcon]
      · rw [if_neg hcon] at hm
        exact absurd hm (by simp)
    | none =>
      rfl

/-- Counterexample for C6 as stated: two user turns exist but the
second-most-recent has empty content, and the handler answers "No
previous question found in this chat." instead of quoting it. -/
theorem claim6_counterexample :
    (handleUserQuery envTrivial (Except.ok { isCasual := true }) "f" true
        (some "c") [⟨"user", "analyze BTC"⟩, ⟨"user", ""⟩]
        "what did i ask").response
      = "No previous question found in this chat." ∧
    (([⟨"user", "analyze BTC"⟩, ⟨"user", ""⟩] : List ChatMsg).filter
        (fun m => m.type == "user")).length = 2 := by
  decide

/-- Witness for C6 on the spec scenario: user turns (newest first)
"analyze BTC" then the earlier price question; the handler quotes the
earlier one. -/
theorem claim6_witness :
    (handleUserQuery envTrivial (Except.ok { isCasual := true }) "f" true
        (some "c")
        [⟨"user", "analyze BTC"⟩, ⟨"user", "what\x27s ETH price"⟩]
        "What did I ask just now").response
      = "Your previous question was: \"what\x27s ETH price\"" := by
  have h := claim6_last_question envTrivial (Except.ok { isCasual := true })
    "f" (some "c")
    [⟨"user", "analyze BTC"⟩, ⟨"user", "what\x27s ETH price"⟩]
    "What did I ask just now" (by decide) (by decide)
  rw [h.2]
  decide

/-! ## Characterization of the aggregation stages -/

/-- The fallback sources one compensation attempt appends, by backup
outcome: one success entry for data, nothing for a null resolution, one
failed entry for a rejection. -/
def fallbackSources (env : FetchEnv) (symbol : String) : List SourceResult :=
  match env.backup symbol with
  | .ok (some fd) =>
    [⟨"fallback", fd.backupProvider ++ "_ticker", "success", none⟩]
  | .ok none => []
  | .error e => [⟨"fallback", "universal_fallback", "failed", some e⟩]

/-- The sources one bybit plan entry contributes. -/
def bybitEntrySources (env : FetchEnv) (e : String × BybitParams) :
    List SourceResult :=
  match env.bybit e.1 e.2 with
  | .ok _ => [⟨"bybit", e.1, "success", none⟩]
  | .error er =>
    ⟨"bybit", e.1, "failed", some er⟩ ::
      (if strIncludes e.1 "tickers" then fallbackSources env e.2.symbol
       else [])

/-- The payload entries one bybit plan entry contributes. -/
def bybitEntryData (env : FetchEnv) (e : String × BybitParams) :
    List (String × BybitPayload) :=
  match env.bybit e.1 e.2 with
  | .ok r => [(e.1, r)]
  | .error _ => []

/-- The external calls one bybit plan entry issues. -/
def bybitEntryCalls (env : FetchEnv) (e : String × BybitParams) :
    List ExtCall :=
  ExtCall.bybitCall e.1 e.2 ::
    (match env.bybit e.1 e.2 with
     | .ok _ => []
     | .error _ =>
       if strIncludes e.1 "tickers" then [ExtCall.fallbackCall e.2.symbol]
       else [])

/-- Sources of the whole bybit stage. -/
def bybitStageSources (env : FetchEnv) (rd : RequiredData) :
    List SourceResult :=
  (rd.bybit.getD []).flatMap (bybitEntrySources env)

/-- Payload entries of the whole bybit stage. -/
def bybitStageData (env : FetchEnv) (rd : RequiredData) :
    List (String × BybitPayload) :=
  (rd.bybit.getD []).flatMap (bybitEntryData env)

/-- External calls of the whole bybit stage. -/
def bybitStageCalls (env : FetchEnv) (rd : RequiredData) : List ExtCall :=
  (rd.bybit.getD []).flatMap (bybitEntryCalls env)

/-- Sources of the live-price stage. -/
def liveStageSources (env : FetchEnv) (rd : RequiredData) :
    List SourceResult :=
  if rd.livePrice then
    match env.live with
    | .ok (some _) => [⟨"live_price", "live_price_api", "success", none⟩]
    | .ok none => []
    | .error e => [⟨"live_price", "live_price_api", "failed", some e⟩]
  else []

/-- External calls of the live-price stage. -/
def liveStageCalls (rd : RequiredData) : List ExtCall :=
  if rd.livePrice then [ExtCall.liveCall] else []

/-- The live price stored by the live-price stage. -/
def liveStageValue (env : FetchEnv) (rd : RequiredData) : Option LivePrice :=
  if rd.livePrice then
    match env.live with
    | .ok (some lp) => some lp
    | _ => none
  else none

/-- Sources of the web-search stage, one per query in order. -/
def webStageSources (env : FetchEnv) (rd : RequiredData) :
    List SourceResult :=
  match rd.webSearch with
  | some queries => queries.map (fun q =>
      match env.web q with
      | .ok _ => ⟨"web", q, "success", none⟩
      | .error e => ⟨"web", q, "failed", some e⟩)
  | none => []

/-- External calls of the web-search stage. -/
def webStageCalls (rd : RequiredData) : List ExtCall :=
  (rd.webSearch.getD []).map ExtCall.webCall

/-- The query-content pairs collected by the successful web searches. -/
def collectWeb (env : FetchEnv) (queries : List String) :
    List (String × String) :=
  queries.filterMap (fun q =>
    match env.web q with
    | .ok c => some (q, c)
    | .error _ => none)

/-- The webContent field after the web stage: an array (possibly empty)
exactly when the plan carried webSearch. -/
def webStageContent (env : FetchEnv) (rd : RequiredData) :
    Option (List (String × String)) :=
  match rd.webSearch with
  | some queries => some (collectWeb env queries)
  | none => none

/-- Sources of the indicator stage, given the payloads of the bybit
stage. -/
def calcStageSources (rd : RequiredData)
    (data : List (String × BybitPayload)) : List SourceResult :=
  match rd.technicalIndicators with
  | some _ =>
    match data.lookup "kline" with
    | some _ => [⟨"calculation", "technicalIndicators", "success", none⟩]
    | none => []
  | none => []

lemma processBybitEntry_fields (env : FetchEnv) (st : AggSt)
    (e : String × BybitParams) :
    (processBybitEntry env st e).agg.sources
        = st.agg.sources ++ bybitEntrySources env e
    ∧ (processBybitEntry env st e).agg.data
        = st.agg.data ++ bybitEntryData env e
    ∧ (processBybitEntry env st e).calls
        = st.calls ++ bybitEntryCalls env e
    ∧ (processBybitEntry env st e).agg.livePrice = st.agg.livePrice
    ∧ (processBybitEntry env st e).agg.webContent = st.agg.webContent
    ∧ (processBybitEntry env st e).agg.enhancedIndicators
        = st.agg.enhancedIndicators := by
  simp only [processBybitEntry, bybitEntrySources, bybitEntryData,
    bybitEntryCalls]
  cases h : env.bybit e.1 e.2 with
  | ok r => simp
  | error er =>
    by_cases ht : strIncludes e.1 "tickers"
    · simp only [if_pos ht, tryFallbackData, fallbackSources]
      cases hb : env.backup e.2.symbol with
      | ok ob => cases ob <;> simp
      | error e2 => simp
    · simp [if_neg ht]

lemma foldl_processBybitEntry (env : FetchEnv)
    (entries : List (String × BybitParams)) : ∀ st : AggSt,
    (entries.foldl (processBybitEntry env) st).agg.sources
        = st.agg.sources ++ entries.flatMap (bybitEntrySources env)
    ∧ (entries.foldl (processBybitEntry env) st).agg.data
        = st.agg.data ++ entries.flatMap (bybitEntryData env)
    ∧ (entries.foldl (processBybitEntry env) st).calls
        = st.calls ++ entries.flatMap (bybitEntryCalls env)
    ∧ (entries.foldl (processBybitEntry env) st).agg.livePrice
        = st.agg.livePrice
    ∧ (entries.foldl (processBybitEntry env) st).agg.webContent
        = st.agg.webContent
    ∧ (entries.foldl (processBybitEntry env) st).agg.enhancedIndicators
        = st.agg.enhancedIndicators := by
  induction entries with
  | nil => intro st; simp
  | cons e es ih =>
    intro st
    obtain ⟨h1, h2, h3, h4, h5, h6⟩ := processBybitEntry_fields env st e
    obtain ⟨g1, g2, g3, g4, g5, g6⟩ := ih (processBybitEntry env st e)
    simp only [List.foldl_cons, List.flatMap_cons]
    exact ⟨by rw [g1, h1, List.append_assoc], by rw [g2, h2, List.append_assoc],
      by rw [g3, h3, List.append_assoc], by rw [g4, h4], by rw [g5, h5],
      by rw [g6, h6]⟩

lemma runBybit_fields (env : FetchEnv) (rd : RequiredData) (st : AggSt) :
    (runBybit env rd st).agg.sources
        = st.agg.sources ++ bybitStageSources env rd
    ∧ (runBybit env rd st).agg.data = st.agg.data ++ bybitStageData env rd
    ∧ (runBybit env rd st).calls = st.calls ++ bybitStageCalls env rd
    ∧ (runBybit env rd st).agg.livePrice = st.agg.livePrice
    ∧ (runBybit env rd st).agg.webContent = st.agg.webContent
    ∧ (runBybit env rd st).agg.enhancedIndicators
        = st.agg.enhancedIndicators := by
  simp only [runBybit, bybitStageSources, bybitStageData, bybitStageCalls]
  cases rd.bybit with
  | some entries => exact foldl_processBybitEntry env entries st
  | none => simp

lemma runLivePrice_fields (env : FetchEnv) (rd : RequiredData) (st : AggSt) :
    (runLivePrice env rd st).agg.sources
        = st.agg.sources ++ liveStageSources env rd
    ∧ (runLivePrice env rd st).agg.data = st.agg.data
    ∧ (runLivePrice env rd st).calls = st.calls ++ liveStageCalls rd
    ∧ (runLivePrice env rd st).agg.livePrice
        = (liveStageValue env rd).or st.agg.livePrice
    ∧ (runLivePrice env rd st).agg.webContent = st.agg.webContent
    ∧ (runLivePrice env rd st).agg.enhancedIndicators
        = st.agg.enhancedIndicators := by
  simp only [runLivePrice, liveStageSources, liveStageCalls, liveStageValue]
  by_cases hl : rd.livePrice
  · simp only [if_pos hl]
    cases h : env.live with
    | ok ob => cases ob <;> simp
    | error e => simp
  · simp [if_neg hl]

lemma processWebQuery_fields (env : FetchEnv) (q : String) (st : AggSt)
    (l : List (String × String)) (hw : st.agg.webContent = some l) :
    (processWebQuery env st q).agg.sources
        = st.agg.sources ++ webStageSources env
            { webSearch := some [q] }
    ∧ (processWebQuery env st q).agg.data = st.agg.data
    ∧ (processWebQuery env st q).calls = st.calls ++ [ExtCall.webCall q]
    ∧ (processWebQuery env st q).agg.livePrice = st.agg.livePrice
    ∧ (processWebQuery env st q).agg.webContent
        = some (l ++ collectWeb env [q])
    ∧ (processWebQuery env st q).agg.enhancedIndicators
        = st.agg.enhancedIndicators := by
  simp only [processWebQuery, webStageSources, collectWeb]
  cases h : env.web q with
  | ok c => simp [hw, h]
  | error e => simp [hw, h]

lemma foldl_processWebQuery (env : FetchEnv) (queries : List String) :
    ∀ (st : AggSt) (l : List (String × String)),
    st.agg.webContent = some l →
    (queries.foldl (processWebQuery env) st).agg.sources
        = st.agg.sources ++ webStageSources env { webSearch := some queries }
    ∧ (queries.foldl (processWebQuery env) st).agg.data = st.agg.data
    ∧ (queries.foldl (processWebQuery env) st).calls
        = st.calls ++ queries.map ExtCall.webCall
    ∧ (queries.foldl (processWebQuery env) st).agg.livePrice
        = st.agg.livePrice
    ∧ (queries.foldl (processWebQuery env) st).agg.webContent
        = some (l ++ collectWeb env queries)
    ∧ (queries.foldl (processWebQuery env) st).agg.enhancedIndicators
        = st.agg.enhancedIndicators := by
  induction queries with
  | nil => intro st l hw; simp [webStageSources, collectWeb, hw]
  | cons q qs ih =>
    intro st l hw
    obtain ⟨h1, h2, h3, h4, h5, h6⟩ := processWebQuery_fields env q st l hw
    obtain ⟨g1, g2, g3, g4, g5, g6⟩ :=
      ih (processWebQuery env st q) (l ++ collectWeb env [q]) h5
    simp only [List.foldl_cons]
    refine ⟨?_, by rw [g2, h2], ?_, by rw [g4, h4], ?_, by rw [g6, h6]⟩
    · rw [g1, h1, List.append_assoc]
      simp [webStageSources]
    · rw [g3, h3, List.append_assoc]
      simp
    · rw [g5]
      cases hq : env.web q <;> simp [collectWeb, hq, List.append_assoc]

lemma runWeb_fields (env : FetchEnv) (rd : RequiredData) (st : AggSt) :
    (runWeb env rd st).agg.sources
        = st.agg.sources ++ webStageSources env rd
    ∧ (runWeb env rd st).agg.data = st.agg.data
    ∧ (runWeb env rd st).calls = st.calls ++ webStageCalls rd
    ∧ (runWeb env rd st).agg.livePrice = st.agg.livePrice
    ∧ (runWeb env rd st).agg.webContent
        = (webStageContent env rd).or st.agg.webContent
    ∧ (runWeb env rd st).agg.enhancedIndicators
        = st.agg.enhancedIndicators := by
  simp only [runWeb, webStageCalls, webStageContent]
  cases hws : rd.webSearch with
  | some queries =>
    obtain ⟨g1, g2, g3, g4, g5, g6⟩ := foldl_processWebQuery env queries
      { st with agg := { st.agg with webContent := some [] } } [] rfl
    refine ⟨?_, by rw [g2], by rw [g3]; simp, by rw [g4], ?_, by rw [g6]⟩
    · rw [g1]
      simp [webStageSources, hws]
    · rw [g5]
      simp
  | none => simp [webStageSources, hws]

lemma runCalc_fields (env : FetchEnv) (rd : RequiredData) (st : AggSt) :
    (runCalc env rd st).agg.sources
        = st.agg.sources ++ calcStageSources rd st.agg.data
    ∧ (runCalc env rd st).agg.data = st.agg.data
    ∧ (runCalc env rd st).calls = st.calls
    ∧ (runCalc env rd st).agg.livePrice = st.agg.livePrice
    ∧ (runCalc env rd st).agg.webContent = st.agg.webContent := by
  simp only [runCalc, calcStageSources]
  cases rd.technicalIndicators with
  | some names =>
    cases h : st.agg.data.lookup "kline" with
    | some kl => simp [h]
    | none => simp [h]
  | none => simp

/-- Full characterization of one aggregation run: the source list is the
concatenation of the four stage contributions in order, the call trace
likewise, and the payloads, live price and web content are the stage
values. -/
lemma aggregate_char (env : FetchEnv) (rd : RequiredData) :
    (aggregate env rd).agg.sources
        = bybitStageSources env rd ++ liveStageSources env rd
          ++ webStageSources env rd
          ++ calcStageSources rd (bybitStageData env rd)
    ∧ (aggregate env rd).calls
        = bybitStageCalls env rd ++ liveStageCalls rd ++ webStageCalls rd
    ∧ (aggregate env rd).agg.data = bybitStageData env rd
    ∧ (aggregate env rd).agg.livePrice = liveStageValue env rd
    ∧ (aggregate env rd).agg.webContent = webStageContent env rd := by
  have hb := runBybit_fields env rd ⟨{}, []⟩
  have hl := runLivePrice_fields env rd (runBybit env rd ⟨{}, []⟩)
  have hw := runWeb_fields env rd
    (runLivePrice env rd (runBybit env rd ⟨{}, []⟩))
  have hc := runCalc_fields env rd
    (runWeb env rd (runLivePrice env rd (runBybit env rd ⟨{}, []⟩)))
  simp only [aggregate]
  obtain ⟨b1, b2, b3, b4, b5, b6⟩ := hb
  obtain ⟨l1, l2, l3, l4, l5, l6⟩ := hl
  obtain ⟨w1, w2, w3, w4, w5, w6⟩ := hw
  obtain ⟨c1, c2, c3, c4, c5⟩ := hc
  refine ⟨?_, ?_, ?_, ?_, ?_⟩
  · rw [c1, w1, l1, b1, w2, l2, b2]
    simp [List.append_assoc]
  · rw [c3, w3, l3, b3]
    simp [List.append_assoc]
  · rw [c2, w2, l2, b2]
    simp
  · rw [c4, w4, l4, b4]
    cases liveStageValue env rd <;> rfl
  · rw [c5, w5, l5, b5]
    simp

/-! ## Filter lemmas over the stage contributions -/

/-- Trace membership test for web-search invocations. -/
def isWebCall : ExtCall → Bool
  | .webCall _ => true
  | _ => false

lemma filter_flatMap_eq {α β : Type} (l : List α) (f : α → List β)
    (p : β → Bool) :
    (l.flatMap f).filter p = l.flatMap (fun a => (f a).filter p) := by
  induction l with
  | nil => simp
  | cons a as ih => simp [List.flatMap_cons, List.filter_append, ih]

lemma flatMap_nil_fun {α β : Type} (l : List α) :
    l.flatMap (fun _ => ([] : List β)) = [] := by
  induction l with
  | nil => simp
  | cons a as ih => simp [List.flatMap_cons, ih]

lemma fallbackSources_filter_fallback (env : FetchEnv) (symbol : String) :
    (fallbackSources env symbol).filter (fun s => s.type == "fallback")
      = fallbackSources env symbol := by
  simp only [fallbackSources]
  cases hb : env.backup symbol with
  | ok ob => cases ob <;> simp
  | error e => simp

lemma bybitEntry_filter_fallback (env : FetchEnv) (e : String × BybitParams) :
    (bybitEntrySources env e).filter (fun s => s.type == "fallback")
      = (match env.bybit e.1 e.2 with
         | .ok _ => []
         | .error _ =>
           if strIncludes e.1 "tickers" then fallbackSources env e.2.symbol
           else []) := by
  simp only [bybitEntrySources]
  cases h : env.bybit e.1 e.2 with
  | ok r => simp
  | error er =>
    by_cases ht : strIncludes e.1 "tickers"
    · simp only [if_pos ht, List.filter_cons]
      simp [fallbackSources_filter_fallback]
    · simp [if_neg ht]

lemma bybitEntry_filter_live (env : FetchEnv) (e : String × BybitParams) :
    (bybitEntrySources env e).filter (fun s => s.type == "live_price")
      = [] := by
  simp only [bybitEntrySources]
  cases h : env.bybit e.1 e.2 with
  | ok r => simp
  | error er =>
    by_cases ht : strIncludes e.1 "tickers"
    · simp only [if_pos ht, List.filter_cons, fallbackSources]
      cases hb : env.backup e.2.symbol with
      | ok ob => cases ob <;> simp
      | error e2 => simp
    · simp [if_neg ht]

lemma bybitEntry_filter_web (env : FetchEnv) (e : String × BybitParams) :
    (bybitEntrySources env e).filter (fun s => s.type == "web") = [] := by
  simp only [bybitEntrySources]
  cases h : env.bybit e.1 e.2 with
  | ok r => simp
  | error er =>
    by_cases ht : strIncludes e.1 "tickers"
    · simp only [if_pos ht, List.filter_cons, fallbackSources]
      cases hb : env.backup e.2.symbol with
      | ok ob => cases ob <;> simp
      | error e2 => simp
    · simp [if_neg ht]

lemma bybitEntryCalls_filter_fallback (env : FetchEnv)
    (e : String × BybitParams) :
    (bybitEntryCalls env e).filter isFallbackCall
      = (match env.bybit e.1 e.2 with
         | .ok _ => []
         | .error _ =>
           if strIncludes e.1 "tickers" then [ExtCall.fallbackCall e.2.symbol]
           else []) := by
  simp only [bybitEntryCalls]
  cases h : env.bybit e.1 e.2 with
  | ok r => simp [isFallbackCall]
  | error er =>
    by_cases ht : strIncludes e.1 "tickers"
    · simp [if_pos ht, isFallbackCall]
    · simp [if_neg ht, isFallbackCall]

lemma bybitEntryCalls_filter_live (env : FetchEnv)
    (e : String × BybitParams) :
    (bybitEntryCalls env e).filter isLiveCall = [] := by
  simp only [bybitEntryCalls]
  cases h : env.bybit e.1 e.2 with
  | ok r => simp [isLiveCall]
  | error er =>
    by_cases ht : strIncludes e.1 "tickers"
    · simp [if_pos ht, isLiveCall]
    · simp [if_neg ht, isLiveCall]

lemma bybitEntryCalls_filter_web (env : FetchEnv)
    (e : String × BybitParams) :
    (bybitEntryCalls env e).filter isWebCall = [] := by
  simp only [bybitEntryCalls]
  cases h : env.bybit e.1 e.2 with
  | ok r => simp [isWebCall]
  | error er =>
    by_cases ht : strIncludes e.1 "tickers"
    · simp [if_pos ht, isWebCall]
    · simp [if_neg ht, isWebCall]

lemma liveStageSources_filter (env : FetchEnv) (rd : RequiredData) :
    (liveStageSources env rd).filter (fun s => s.type == "fallback") = []
    ∧ (liveStageSources env rd).filter (fun s => s.type == "live_price")
        = liveStageSources env rd
    ∧ (liveStageSources env rd).filter (fun s => s.type == "web") = [] := by
  simp only [liveStageSources]
  by_cases hl : rd.livePrice
  · simp only [if_pos hl]
    cases h : env.live with
    | ok ob => cases ob <;> simp
    | error e => simp
  · simp [if_neg hl]

lemma webSources_list_filter (env : FetchEnv) (queries : List String) :
    ((queries.map (fun q =>
        match env.web q with
        | .ok _ => (⟨"web", q, "success", none⟩ : SourceResult)
        | .error e => ⟨"web", q, "failed", some e⟩)).filter
      (fun s => s.type == "fallback") = [])
    ∧ ((queries.map (fun q =>
        match env.web q with
        | .ok _ => (⟨"web", q, "success", none⟩ : SourceResult)
        | .error e => ⟨"web", q, "failed", some e⟩)).filter
      (fun s => s.type == "live_price") = [])
    ∧ ((queries.map (fun q =>
        match env.web q with
        | .ok _ => (⟨"web", q, "success", none⟩ : SourceResult)
        | .error e => ⟨"web", q, "failed", some e⟩)).filter
      (fun s => s.type == "web")
        = queries.map (fun q =>
            match env.web q with
            | .ok _ => (⟨"web", q, "success", none⟩ : SourceResult)
            | .error e => ⟨"web", q, "failed", some e⟩)) := by
  induction queries with
  | nil => simp
  | cons q qs ih =>
    obtain ⟨i1, i2, i3⟩ := ih
    cases hq : env.web q <;>
      simp [List.filter_cons, hq, i1, i2, i3]

lemma webStageSources_filter (env : FetchEnv) (rd : RequiredData) :
    (webStageSources env rd).filter (fun s => s.type == "fallback") = []
    ∧ (webStageSources env rd).filter (fun s => s.type == "live_price") = []
    ∧ (webStageSources env rd).filter (fun s => s.type == "web")
        = webStageSources env rd := by
  simp only [webStageSources]
  cases hws : rd.webSearch with
  | some queries => exact webSources_list_filter env queries
  | none => simp

lemma calcStageSources_filter (rd : RequiredData)
    (data : List (String × BybitPayload)) :
    (calcStageSources rd data).filter (fun s => s.type == "fallback") = []
    ∧ (calcStageSources rd data).filter (fun s => s.type == "live_price") = []
    ∧ (calcStageSources rd data).filter (fun s => s.type == "web") = [] := by
  simp only [calcStageSources]
  cases rd.technicalIndicators with
  | some names =>
    cases h : data.lookup "kline" with
    | some kl => simp
    | none => simp
  | none => simp

lemma liveStageCalls_filter (rd : RequiredData) :
    (liveStageCalls rd).filter isLiveCall = liveStageCalls rd
    ∧ (liveStageCalls rd).filter isFallbackCall = []
    ∧ (liveStageCalls rd).filter isWebCall = [] := by
  simp only [liveStageCalls]
  by_cases hl : rd.livePrice
  · simp [if_pos hl, isLiveCall, isFallbackCall, isWebCall]
  · simp [if_neg hl]

lemma webStageCalls_filter (rd : RequiredData) :
    (webStageCalls rd).filter isLiveCall = []
    ∧ (webStageCalls rd).filter isFallbackCall = []
    ∧ (webStageCalls rd).filter isWebCall = webStageCalls rd := by
  simp only [webStageCalls]
  induction rd.webSearch.getD [] with
  | nil => simp
  | cons q qs ih =>
    obtain ⟨i1, i2, i3⟩ := ih
    simp [List.filter_cons, isLiveCall, isFallbackCall, isWebCall, i1, i2, i3]

/-! ## Claims C1 and C4 -/

/-- Claim C1 (amended): in every aggregation run, exactly the failing
bybit fetches whose dataType contains "tickers" trigger a fallback-pool
invocation for the entry symbol, and the fallback SourceResult appended
for such an entry is determined by the pool outcome — one success entry
when the pool yields data, one failed entry when the pool call throws,
and no entry at all when the pool resolves null.  Successful fetches and
failing non-ticker fetches contribute no fallback invocation or entry. -/
theorem claim1_fallback_compensation :
    ∀ (env : FetchEnv) (rd : RequiredData),
    ((aggregate env rd).agg.sources.filter (fun s => s.type == "fallback"))
      = (rd.bybit.getD []).flatMap (fun e =>
          match env.bybit e.1 e.2 with
          | .ok _ => []
          | .error _ =>
            if strIncludes e.1 "tickers" then fallbackSources env e.2.symbol
            else [])
    ∧ ((aggregate env rd).calls.filter isFallbackCall)
      = (rd.bybit.getD []).flatMap (fun e =>
          match env.bybit e.1 e.2 with
          | .ok _ => []
          | .error _ =>
            if strIncludes e.1 "tickers" then [ExtCall.fallbackCall e.2.symbol]
            else []) := by
  intro env rd
  obtain ⟨hs, hc, _, _, _⟩ := aggregate_char env rd
  constructor
  · rw [hs]
    simp only [List.filter_append, (liveStageSources_filter env rd).1,
      (webStageSources_filter env rd).1,
      (calcStageSources_filter rd (bybitStageData env rd)).1,
      List.append_nil]
    rw [bybitStageSources, filter_flatMap_eq]
    exact List.flatMap_congr (fun e _ => bybitEntry_filter_fallback env e)
  · rw [hc]
    simp only [List.filter_append, (liveStageCalls_filter rd).2.1,
      (webStageCalls_filter rd).2.1, List.append_nil]
    rw [bybitStageCalls, filter_flatMap_eq]
    exact List.flatMap_congr (fun e _ => bybitEntryCalls_filter_fallback env e)

/-- The counterexample environment for C1: the bybit fetch always throws
and the fallback pool always resolves null (its designed
every-provider-failed outcome). -/
def envC1 : FetchEnv :=
  { bybit := fun _ _ => .error "boom"
    backup := fun _ => .ok none
    live := .ok none
    web := fun _ => .ok "content"
    sqrtFn := fun _ => 0 }

/-- The counterexample plan for C1: one tickers request. -/
def rdC1 : RequiredData :=
  { bybit := some [("tickers", { symbol := "BTCUSDT" })] }

/-- Counterexample for C1 as stated: the tickers fetch fails and the
fallback pool is invoked for BTCUSDT, yet the run appends zero fallback
SourceResults (the claim demands exactly one with status success or
failed), because the pool resolved null rather than throwing. -/
theorem claim1_counterexample :
    (aggregate envC1 rdC1).agg.sources
      = [⟨"bybit", "tickers", "failed", some "boom"⟩]
    ∧ (aggregate envC1 rdC1).calls
      = [ExtCall.bybitCall "tickers" { symbol := "BTCUSDT" },
         ExtCall.fallbackCall "BTCUSDT"]
    ∧ ((aggregate envC1 rdC1).agg.sources.filter
        (fun s => s.type == "fallback")).length = 0 := by
  decide

/-- Claim C4 (amended): whenever the plan requests a live price, the
aggregator invokes the live-price lookup exactly once; the lookup
contributes one success SourceResult when it resolves a price, one failed
SourceResult when it throws, and — against the claim as stated — no
SourceResult when it resolves null (its all-APIs-failed outcome); in
every case all web-search fetches of the plan are still executed, one
call and one SourceResult per query. -/
theorem claim4_live_price_isolation :
    ∀ (env : FetchEnv) (rd : RequiredData), rd.livePrice = true →
    ((aggregate env rd).calls.filter isLiveCall = [ExtCall.liveCall])
    ∧ ((aggregate env rd).agg.sources.filter
        (fun s => s.type == "live_price"))
      = (match env.live with
         | .ok (some _) => [⟨"live_price", "live_price_api", "success", none⟩]
         | .ok none => []
         | .error e => [⟨"live_price", "live_price_api", "failed", some e⟩])
    ∧ ((aggregate env rd).calls.filter isWebCall
        = (rd.webSearch.getD []).map ExtCall.webCall)
    ∧ ((aggregate env rd).agg.sources.filter (fun s => s.type == "web"))
        = webStageSources env rd := by
  intro env rd hl
  obtain ⟨hs, hc, _, _, _⟩ := aggregate_char env rd
  refine ⟨?_, ?_, ?_, ?_⟩
  · rw [hc]
    simp only [List.filter_append, (liveStageCalls_filter rd).1,
      (webStageCalls_filter rd).1, List.append_nil]
    rw [bybitStageCalls, filter_flatMap_eq]
    rw [List.flatMap_congr (fun e _ => bybitEntryCalls_filter_live env e)]
    rw [flatMap_nil_fun]
    simp [liveStageCalls, hl]
  · rw [hs]
    simp only [List.filter_append, (liveStageSources_filter env rd).2.1,
      (webStageSources_filter env rd).2.1,
      (calcStageSources_filter rd (bybitStageData env rd)).2.1,
      List.append_nil]
    rw [bybitStageSources, filter_flatMap_eq]
    rw [List.flatMap_congr (fun e _ => bybitEntry_filter_live env e)]
    rw [flatMap_nil_fun]
    simp only [List.nil_append, liveStageSources, if_pos hl]
  · rw [hc]
    simp only [List.filter_append, (liveStageCalls_filter rd).2.2,
      (webStageCalls_filter rd).2.2, List.append_nil]
    rw [bybitStageCalls, filter_flatMap_eq]
    rw [List.flatMap_congr (fun e _ => bybitEntryCalls_filter_web env e)]
    rw [flatMap_nil_fun]
    simp [webStageCalls]
  · rw [hs]
    simp only [List.filter_append, (liveStageSources_filter env rd).2.2,
      (webStageSources_filter env rd).2.2,
      (calcStageSources_filter rd (bybitStageData env rd)).2.2,
      List.append_nil]
    rw [bybitStageSources, filter_flatMap_eq]
    rw [List.flatMap_congr (fun e _ => bybitEntry_filter_web env e)]
    rw [flatMap_nil_fun]
    simp

/-- The counterexample environment for C4: the live-price lookup resolves
null, its outcome when no symbol is recognized or every price API fails
(fetchLivePrice catches every error and returns null, never throwing). -/
def envC4 : FetchEnv :=
  { bybit := fun _ _ => .ok []
    backup := fun _ => .ok none
    live := .ok none
    web := fun _ => .ok "content"
    sqrtFn := fun _ => 0 }

/-- The counterexample plan for C4: only a live price is requested. -/
def rdC4 : RequiredData := { livePrice := true }

/-- Counterexample for C4 as stated: the live-price lookup is invoked and
fails to produce a price, yet no SourceResult of any kind is recorded —
the claim demands a live_price/failed entry. -/
theorem claim4_counterexample :
    (aggregate envC4 rdC4).calls = [ExtCall.liveCall]
    ∧ (aggregate envC4 rdC4).agg.sources = [] := by
  decide

/-- Witness for C4 (amended) at the counterexample environment: the
lookup is invoked exactly once. -/
theorem claim4_witness :
    (aggregate envC4 rdC4).calls.filter isLiveCall = [ExtCall.liveCall] :=
  (claim4_live_price_isolation envC4 rdC4 rfl).1

end Sally
